import Mathlib

/-!
Shallow embedding of the Qobuz-DL download/transcode job pipeline
(`lib/download-job.tsx`, `app/api/server-download/route.ts`,
`lib/settings-provider.tsx`, `app/api/save-to-server/route.ts`) together
with theorems settling the specification claims.

Conventions: JavaScript booleans become `Bool`; possibly-absent JS values
become `Option`; JS numbers that can be fractional become `ℚ`; external
collaborators that live outside the translated sources (the FFmpeg wasm
module, `formatCustomTitle`, `formatArtists`) enter as parameters or as
definitions explicitly marked as modelled from the spec.
-/

namespace QobuzDL

/-! ## Execution strategy (createDownloadJob, download-job.tsx lines 47-50 / 213-225) -/

/-- The three delivery modes of the pipeline. -/
inductive ExecutionMode where
  | ClientArchive
  | ClientServerUpload
  | ServerNative
deriving DecidableEq, Repr

/-- `serverDownloadsEnabled && settings.serverSideDownloads`
(download-job.tsx line 48 and line 215). -/
def shouldUseServerDownloads (globalFlag userServer : Bool) : Bool :=
  globalFlag && userServer

/-- `shouldUseServerDownloads && settings.serverSideProcessing`
(download-job.tsx line 49 and line 216). -/
def shouldUseServerProcessing (globalFlag userServer userProcessing : Bool) : Bool :=
  shouldUseServerDownloads globalFlag userServer && userProcessing

/-- The mode actually executed by `createDownloadJob`: the
`shouldUseServerProcessing` branch posts to `/api/server-download`
(ServerNative); otherwise the `shouldUseServerDownloads` flag selects the
per-file upload packager over the ZIP archive packager (lines 50, 225, 411). -/
def executionMode (globalFlag userServer userProcessing : Bool) : ExecutionMode :=
  if shouldUseServerProcessing globalFlag userServer userProcessing then
    ExecutionMode.ServerNative
  else if shouldUseServerDownloads globalFlag userServer then
    ExecutionMode.ClientServerUpload
  else
    ExecutionMode.ClientArchive

/-! ## Settings fields relevant to the transcode stage -/

/-- `settings.outputQuality : '27' | '7' | '6' | '5'` (settings-provider.tsx). -/
inductive Quality where
  | q27
  | q7
  | q6
  | q5
deriving DecidableEq, Repr

/-- `settings.outputCodec` (settings-provider.tsx). -/
inductive Codec where
  | FLAC
  | WAV
  | ALAC
  | MP3
  | AAC
  | OPUS
deriving DecidableEq, Repr

/-- The slice of `SettingsProps` that the transcode stage reads. -/
structure TranscodeSettings where
  outputQuality : Quality
  outputCodec : Codec
  bitrate : Option Nat
  applyMetadata : Bool
deriving DecidableEq, Repr

/-! ## The server transcode stage (route.ts, applyFFmpeg / processTrack) -/

/-- One invocation of the external encoder (`runFFmpeg` call sites in
`applyFFmpeg`). -/
inductive FfmpegPass where
  | reencode
  | muxMetadata
  | muxArt
deriving DecidableEq, Repr

/-- Symbolic content of the audio file as it moves through the stage:
`raw` is the fetched byte stream, the other constructors record each pass
applied to it. `raw` as final output means byte-for-byte pass-through. -/
inductive AudioContent where
  | raw
  | reencoded (codec : Codec) (bitrateArg : Option Nat)
  | tagged (prev : AudioContent)
  | arted (prev : AudioContent)
deriving DecidableEq, Repr

/-- `skipRencode` from `applyFFmpeg` (route.ts lines 165-167):
`(outputQuality !== '5' && outputCodec === 'FLAC') ||
 (outputQuality === '5' && outputCodec === 'MP3' && bitrate === 320)`.
Qualities 27/7/6 are FLAC-container source tiers and quality 5 is the
MP3-320 source tier, so this is exactly "requested quality/codec equal the
source container's native quality and codec". -/
def skipRencode (s : TranscodeSettings) : Bool :=
  (s.outputQuality != Quality.q5 && s.outputCodec == Codec.FLAC) ||
    (s.outputQuality == Quality.q5 && s.outputCodec == Codec.MP3 && s.bitrate == some 320)

/-- The `-b:a` argument of the re-encode pass (route.ts lines 191-193):
pushed only when `settings.bitrate` is truthy and the codec is not
FLAC/WAV/ALAC. -/
def bitrateArg (s : TranscodeSettings) : Option Nat :=
  match s.bitrate with
  | none => none
  | some b =>
    if b != 0 && s.outputCodec != Codec.FLAC && s.outputCodec != Codec.WAV &&
        s.outputCodec != Codec.ALAC then
      some b
    else
      none

/-- Whether the art-mux step applies (route.ts line 235):
`settings.applyMetadata && !['WAV', 'OPUS'].includes(settings.outputCodec)`. -/
def codecSupportsArt (c : Codec) : Bool :=
  c != Codec.WAV && c != Codec.OPUS

/-- `applyFFmpeg` (route.ts lines 162-261) as a pure function from the
settings and the success of the cover-art fetch to the list of encoder
invocations performed and the content written to the final output path.
The early return renames the input verbatim; step 1 re-encodes when
`skipRencode` is false; step 2 muxes the tag block when metadata is
enabled; step 3 muxes cover art when the codec supports it, and on a
failed art fetch copies `currentInput` verbatim to the output instead of
failing (the catch block at lines 244-248). Encoder passes themselves are
assumed to exit 0 (a non-zero exit throws out of the whole stage). -/
def applyFFmpeg (s : TranscodeSettings) (artFetchOk : Bool) :
    List FfmpegPass × AudioContent :=
  if skipRencode s && !s.applyMetadata then
    ([], AudioContent.raw)
  else
    let step1 : List FfmpegPass × AudioContent :=
      if !skipRencode s then
        ([FfmpegPass.reencode], AudioContent.reencoded s.outputCodec (bitrateArg s))
      else
        ([], AudioContent.raw)
    let step2 : List FfmpegPass × AudioContent :=
      if s.applyMetadata then
        (step1.1 ++ [FfmpegPass.muxMetadata], AudioContent.tagged step1.2)
      else
        step1
    if s.applyMetadata && codecSupportsArt s.outputCodec then
      if artFetchOk then
        (step2.1 ++ [FfmpegPass.muxArt], AudioContent.arted step2.2)
      else
        step2
    else
      step2

/-- The gate in `processTrack` (route.ts lines 140-146, identical to
download-job.tsx lines 130-137) deciding whether `applyFFmpeg` runs at
all: `settings.applyMetadata || !((outputQuality === '27' && outputCodec
=== 'FLAC') || (bitrate === 320 && outputCodec === 'MP3'))`. Note it
tests the bitrate without the quality tier, unlike `skipRencode`. -/
def ffmpegGate (s : TranscodeSettings) : Bool :=
  s.applyMetadata ||
    !((s.outputQuality == Quality.q27 && s.outputCodec == Codec.FLAC) ||
      (s.bitrate == some 320 && s.outputCodec == Codec.MP3))

/-- The full server transcode stage: `processTrack` (route.ts lines
139-155) either runs `applyFFmpeg` or reports "No processing needed" and
performs no pass at all. -/
def processTrackTranscode (s : TranscodeSettings) (artFetchOk : Bool) :
    List FfmpegPass × AudioContent :=
  if ffmpegGate s then applyFFmpeg s artFetchOk else ([], AudioContent.raw)

/-! ## Client single-track pipeline with cancellation
(createDownloadJob, download-job.tsx lines 113-211) -/

/-- Terminal resolution of a client job. The promise always resolves; the
distinctions are: the silent resolve of the `ERR_CANCELED` catch branch
(line 196), the error-toast branch (lines 197-208), the successful
delivery through `proceedDownload`, and the short-duration warning toast
that leaves delivery to the caller (lines 176-191). -/
inductive JobOutcome where
  | Cancelled
  | Completed
  | Failed
  | WarnedAwaitingUser
deriving DecidableEq, Repr

/-- Result of one client track job: its resolution and whether an output
artifact was saved/delivered. -/
structure TrackRunResult where
  outcome : JobOutcome
  delivered : Bool
deriving DecidableEq, Repr

/-- Stages of the client single-track pipeline in source order
(download-job.tsx lines 137-194). Index: 0 `axios.get('/api/download-music')`,
1 `axios.head(trackURL)`, 2 `axios.get(trackURL)` (all three created with
the job's abort `signal`), 3 metadata/MD5 processing via the wasm FFmpeg
(no signal), 4 the `onloadedmetadata` duration validation (no signal),
5 `proceedDownload` (no signal). -/
def signalObservingStages : List Nat := [0, 1, 2]

/-- The normal (uncancelled) tail of the pipeline: the duration check of
`audioElement.onloadedmetadata` (lines 171-193). `durationOk` is
`audioElement.duration >= result.duration`; when it fails, the file is
delivered only if the user clicks the "Download anyway" toast action. -/
def trackRunUncancelled (durationOk acceptAnyway : Bool) : TrackRunResult :=
  if durationOk then
    { outcome := JobOutcome.Completed, delivered := true }
  else
    { outcome := JobOutcome.WarnedAwaitingUser, delivered := acceptAnyway }

/-- The client track job as a function of when the cancel handle fires.
`cancelAt = some t` means `onCancel` (lines 125-128: set `cancelled`,
`controller.abort()`) runs while stage `t` is in flight. Stages 0-2 are
axios calls carrying the abort signal: aborting at or before them makes
the pending call reject with `ERR_CANCELED`, which the catch block
resolves silently (line 196) — no toast, no save. From stage 3 on no
operation reads the signal or the `cancelled` flag (it only gates progress
repaints), so the job runs to its normal conclusion. -/
def runClientTrackJob (cancelAt : Option Nat) (durationOk acceptAnyway : Bool) :
    TrackRunResult :=
  match cancelAt with
  | none => trackRunUncancelled durationOk acceptAnyway
  | some t =>
    if t ≤ 2 then
      { outcome := JobOutcome.Cancelled, delivered := false }
    else
      trackRunUncancelled durationOk acceptAnyway

/-! ## Duration validation (download-job.tsx lines 166-194) -/

/-- Outcome of the duration comparison in `audioElement.onloadedmetadata`:
was the file saved, was a warning surfaced, did the job fail. -/
structure DurationCheckResult where
  delivered : Bool
  warned : Bool
  failed : Bool
deriving DecidableEq, Repr

/-- `onloadedmetadata` (lines 171-193): if `audioElement.duration >=
result.duration` then `proceedDownload` immediately; otherwise a toast
warning with a "Download anyway" action, and `proceedDownload` runs only
from that action's onClick. Both branches end in `resolve()`, never a
failure. Durations are JS numbers, modelled as `ℚ`. -/
def validateDuration (audioDuration declaredDuration : ℚ) (acceptAnyway : Bool) :
    DurationCheckResult :=
  if declaredDuration ≤ audioDuration then
    { delivered := true, warned := false, failed := false }
  else
    { delivered := acceptAnyway, warned := true, failed := false }

/-! ## Album batch ordering and packaging
(createDownloadJob, download-job.tsx lines 323-410) -/

/-- The per-track fields the sizing/ordering loop reads. -/
structure BatchTrack where
  streamable : Bool
  media_number : Nat
  track_number : Nat
deriving DecidableEq, Repr

/-- JS sparse-array index assignment `a[k] = v`: a negative index becomes
an ordinary property invisible to `entries()`, an index beyond the length
extends the array with holes. -/
def jsArraySet (a : List (Option Nat)) (k : Int) (v : Nat) : List (Option Nat) :=
  if k < 0 then a
  else
    let n := k.toNat
    if n < a.length then a.set n (some v)
    else a ++ List.replicate (n - a.length) none ++ [some v]

/-- One step of the sizing loop body (lines 332-349) for a streamable
track: on a disc change, record the current length as `trackOffset` and
`push` the url; otherwise assign `albumUrls[track.track_number +
trackOffset - 1]`. The url is identified by the track's source position. -/
def albumUrlsStep (srcIdx : Nat) (t : BatchTrack)
    (st : Nat × Nat × List (Option Nat)) : Nat × Nat × List (Option Nat) :=
  let (currentDisk, trackOffset, albumUrls) := st
  if !t.streamable then st
  else if currentDisk != t.media_number then
    (t.media_number, albumUrls.length, albumUrls ++ [some srcIdx])
  else
    (currentDisk, trackOffset,
      jsArraySet albumUrls ((t.track_number : Int) + (trackOffset : Int) - 1) srcIdx)

/-- The whole sizing loop: `currentDisk = 1`, `trackOffset = 0`, then fold
the body over `albumTracks` in source order. -/
def buildAlbumUrls (tracks : List BatchTrack) : List (Option Nat) :=
  (((tracks.enum).foldl (fun st (p : Nat × BatchTrack) => albumUrlsStep p.1 p.2 st)
    (1, 0, ([] : List (Option Nat))))).2.2

/-- `String.prototype.padStart(width, '0')`. -/
def padStart (s : String) (width : Nat) : String :=
  if width ≤ s.length then s
  else String.mk (List.replicate (width - s.length) '0') ++ s

/-- Modelled from the spec: `cleanFileName` lives in `lib/utils.ts`, which
is not among the translated sources; per the Path Sanitizer section it
"strips all filesystem-illegal characters from a leaf name". -/
def cleanFileName (s : String) : String :=
  String.mk (s.data.filter (fun c =>
    c != '/' && c != '\\' && c != ':' && c != '*' && c != '?' &&
      c != '<' && c != '>' && c != '|'))

/-- The zip entry name built in the reduce at line 401:
`(index + 1).toString().padStart(Math.max(String(albumTracks.length - 1)
.length, 2), '0')` + space + rendered track template + extension, passed
through `cleanFileName`. `render i` stands for
`formatCustomTitle(settings.trackName, albumTracks[i])`. -/
def albumFileName (trackCount bufferIdx : Nat) (render : Nat → String)
    (ext : String) : String :=
  cleanFileName
    (padStart (toString (bufferIdx + 1))
        (max (toString (trackCount - 1)).length 2)
      ++ " " ++ render bufferIdx ++ "." ++ ext)

/-- The ordered track entry names of the zip/upload file set (lines
396-409): the transfer loop fills `trackBuffers[index]` exactly at the
indices where `albumUrls[index]` is set, and the reduce then emits one
file per present buffer, in index order. -/
def albumZipNames (tracks : List BatchTrack) (render : Nat → String)
    (ext : String) : List String :=
  ((buildAlbumUrls tracks).enum).filterMap (fun p =>
    match p.2 with
    | none => none
    | some _ => some (albumFileName tracks.length p.1 render ext))

/-! ## Per-file server upload packager
(createDownloadJob, download-job.tsx lines 411-450) -/

/-- What one `fetch('/api/save-to-server')` attempt does for one file:
`ok` is a 2xx response, `httpError` is `!saveResponse.ok` (logged, loop
continues), `exn` is a thrown fetch error (caught at line 440, logged,
loop continues). -/
inductive UploadResult where
  | ok
  | httpError
  | exn
deriving DecidableEq, Repr

/-- The upload loop (lines 418-443): every entry of the file set is
attempted in order; `savedCount` is incremented exactly on `saveResponse.ok`.
Returns (savedCount, number of attempted uploads). -/
def uploadFilesLoop : List UploadResult → Nat × Nat
  | [] => (0, 0)
  | r :: rest =>
    let tail := uploadFilesLoop rest
    ((if r == UploadResult.ok then 1 else 0) + tail.1, tail.2 + 1)

/-- Report of the whole per-file save phase (lines 445-450): after the
loop the progress is forced to 100, an "Album Download Complete" toast
reports `savedCount/totalFiles`, and the job resolves — unconditionally,
whatever the per-file results were. -/
structure ServerSaveReport where
  outcome : JobOutcome
  saved : Nat
  total : Nat
  message : String
deriving DecidableEq, Repr

/-- The per-file save phase as a function of the per-file results. -/
def albumServerSave (files : List UploadResult) : ServerSaveReport :=
  let counts := uploadFilesLoop files
  { outcome := JobOutcome.Completed
    saved := counts.1
    total := files.length
    message := toString counts.1 ++ "/" ++ toString files.length ++ " files" }

/-! ## Metadata tag block (route.ts applyFFmpeg step 2, lines 204-224) -/

/-- An entry of `album.artists` / the value of `track.performer`: an
object whose `name` may be absent. -/
structure QPerformer where
  name : Option String
deriving DecidableEq, Repr

/-- The album fields the tag block reads. `artists` is `undefined` or an
array (whose elements could themselves be absent, hence `Option`). -/
structure QAlbumMeta where
  artists : Option (List (Option QPerformer))
deriving DecidableEq, Repr

/-- The track fields the tag block reads. -/
structure QTrackMeta where
  performer : Option QPerformer
deriving DecidableEq, Repr

/-- JS `a || b` for a possibly-absent string `a`: an absent or empty
string falls through to `b`. -/
def jsStrOr (a : Option String) (b : String) : String :=
  match a with
  | none => b
  | some s => if s = "" then b else s

/-- `album.artists === undefined ? [track.performer] : album.artists`
(route.ts line 206). -/
def resolvedArtists (album : QAlbumMeta) (track : QTrackMeta) :
    List (Option QPerformer) :=
  match album.artists with
  | none => [track.performer]
  | some l => l

/-- `artists[0]?.name` — the optional-chained name of the first array
element. -/
def headArtistName (artists : List (Option QPerformer)) : Option String :=
  (artists.head?.bind id).bind (fun p => p.name)

/-- The artist-related lines of the FFMETADATA block, in the order the
string is built (route.ts lines 208-216): the `artists.length > 0` branch
writes `artist`/`album_artist` from `formatArtists(track)` (passed in as
`fmtArtists` since `formatArtists` lives in `lib/qobuz-dl`), the empty
branch writes the literal `Various Artists` twice; then one more
`album_artist` line is appended unconditionally with
`artists[0]?.name || track.performer?.name || 'Various Artists'`. -/
def artistTagLines (album : QAlbumMeta) (track : QTrackMeta)
    (fmtArtists : String) : List (String × String) :=
  let artists := resolvedArtists album track
  (if artists.length > 0 then
    [("artist", fmtArtists), ("album_artist", fmtArtists)]
  else
    [("artist", "Various Artists"), ("album_artist", "Various Artists")]) ++
  [("album_artist",
    jsStrOr (headArtistName artists)
      (jsStrOr (track.performer.bind (fun p => p.name)) "Various Artists"))]

/-- The value of the (unique) `artist` line of the block. -/
def artistFieldValue (album : QAlbumMeta) (track : QTrackMeta)
    (fmtArtists : String) : String :=
  if (resolvedArtists album track).length > 0 then fmtArtists
  else "Various Artists"

/-- The value of the last `album_artist` line of the block — the one a
duplicate-key consumer ends up with. -/
def lastAlbumArtistValue (album : QAlbumMeta) (track : QTrackMeta)
    (fmtArtists : String) : String :=
  (((artistTagLines album track fmtArtists).filter
      (fun p => p.1 == "album_artist")).getLast?).elim "" (fun p => p.2)

/-! ## Settings validation (settings-provider.tsx, isValidSettings) -/

/-- A JavaScript value as stored on a settings-like object. -/
inductive JSVal where
  | s (v : String)
  | n (v : ℚ)
  | b (v : Bool)
deriving DecidableEq, Repr

/-- The fields `isValidSettings` reads, each possibly absent. -/
structure JSSettingsObj where
  particles : Option JSVal
  outputQuality : Option JSVal
  outputCodec : Option JSVal
  bitrate : Option JSVal
  applyMetadata : Option JSVal
  explicitContent : Option JSVal
  fixMD5 : Option JSVal
  albumArtSize : Option JSVal
  albumArtQuality : Option JSVal
  zipName : Option JSVal
  trackName : Option JSVal
  serverSideDownloads : Option JSVal
  serverDownloadPath : Option JSVal
  folderName : Option JSVal
deriving DecidableEq, Repr

/-- `typeof x === 'boolean'`. -/
def typeofBoolean : Option JSVal → Bool
  | some (JSVal.b _) => true
  | _ => false

/-- `typeof x === 'string'`. -/
def typeofString : Option JSVal → Bool
  | some (JSVal.s _) => true
  | _ => false

/-- `[...].includes(x)` on an array of string literals (strict equality,
so non-strings never match). -/
def strIncludes (options : List String) : Option JSVal → Bool
  | some (JSVal.s v) => options.contains v
  | _ => false

/-- `typeof x === 'number' && lo <= x && x <= hi` (the JS comparisons are
false on non-numbers anyway). -/
def numberInRange (lo hi : ℚ) : Option JSVal → Bool
  | some (JSVal.n v) => lo ≤ v && v ≤ hi
  | _ => false

/-- The first operand of the comma in `isValidSettings`'s return
expression (settings-provider.tsx lines 25-37): particles/quality/codec/
bitrate/applyMetadata/explicitContent/fixMD5/albumArtSize/albumArtQuality. -/
def firstGroupCheck (o : JSSettingsObj) : Bool :=
  typeofBoolean o.particles &&
  strIncludes ["27", "7", "6", "5"] o.outputQuality &&
  strIncludes ["FLAC", "WAV", "ALAC", "MP3", "AAC", "OPUS"] o.outputCodec &&
  (numberInRange 24 320 o.bitrate || o.bitrate == none) &&
  typeofBoolean o.applyMetadata &&
  typeofBoolean o.explicitContent &&
  typeofBoolean o.fixMD5 &&
  numberInRange 100 3600 o.albumArtSize &&
  numberInRange (1/10) 1 o.albumArtQuality

/-- The second operand of the comma (lines 38-41): zipName/trackName/
serverSideDownloads/serverDownloadPath/folderName. -/
def secondGroupCheck (o : JSSettingsObj) : Bool :=
  typeofString o.zipName && typeofString o.trackName &&
  typeofBoolean o.serverSideDownloads &&
  typeofString o.serverDownloadPath && typeofString o.folderName

/-- The JS comma operator: evaluate both, yield the second. -/
def jsComma (_a b : Bool) : Bool := b

/-- `isValidSettings` (settings-provider.tsx lines 23-43): the return
expression is `(firstGroup , secondGroup)` — a comma expression, so the
first group is evaluated and discarded. -/
def isValidSettings (o : JSSettingsObj) : Bool :=
  jsComma (firstGroupCheck o) (secondGroupCheck o)

/-! ## Server-mode framed event stream consumer
(createDownloadJob, download-job.tsx lines 73-108 and 247-282) -/

/-- `"` as a character. -/
def quoteChar : Char := Char.ofNat 34

/-- `\` as a character. -/
def backslashChar : Char := Char.ofNat 92

/-- Opening curly brace. -/
def lbraceChar : Char := Char.ofNat 123

/-- Closing curly brace. -/
def rbraceChar : Char := Char.ofNat 125

/-- `String.prototype.split(sep)` on the character list of a chunk. -/
def splitCharsOn (sep : Char) : List Char → List (List Char)
  | [] => [[]]
  | c :: rest =>
    match splitCharsOn sep rest with
    | [] => [[]]
    | l :: ls => if c = sep then [] :: l :: ls else (c :: l) :: ls

/-- A parsed flat JSON value: the server frames only carry strings and
numbers (`type`, `message`, `progress`). -/
inductive JLit where
  | jstr (v : String)
  | jnum (v : ℚ)
deriving DecidableEq, Repr

/-- Parse the body of a JSON string literal (opening quote already
consumed) up to its closing quote. Escapes are rejected — the concrete
frames evaluated below contain none, and `JSON.parse` agrees with this
parser on them. -/
def parseStringBody : List Char → Option (String × List Char)
  | [] => none
  | c :: rest =>
    if c = quoteChar then some ("", rest)
    else if c = backslashChar then none
    else
      match parseStringBody rest with
      | none => none
      | some (s, r) => some (String.mk (c :: s.data), r)

/-- Longest leading run of decimal digits. -/
def takeDigits : List Char → List Char × List Char
  | [] => ([], [])
  | c :: rest =>
    if c.isDigit then
      let p := takeDigits rest
      (c :: p.1, p.2)
    else
      ([], c :: rest)

/-- Decimal value of a digit run. -/
def digitsToNat (ds : List Char) : Nat :=
  ds.foldl (fun acc c => acc * 10 + (c.toNat - 48)) 0

/-- Parse a JSON number (integer or decimal fraction, optional minus),
the shapes `JSON.stringify` emits for the progress values. -/
def parseNumber (cs : List Char) : Option (ℚ × List Char) :=
  let signed : Bool × List Char :=
    match cs with
    | c :: rest => if c = '-' then (true, rest) else (false, cs)
    | [] => (false, cs)
  match takeDigits signed.2 with
  | ([], _) => none
  | (ds, rest) =>
    let intPart : ℚ := (digitsToNat ds : ℚ)
    match rest with
    | c :: rest2 =>
      if c = '.' then
        match takeDigits rest2 with
        | ([], _) => none
        | (fs, rest3) =>
          let q : ℚ := intPart + (digitsToNat fs : ℚ) / ((10 : ℚ) ^ fs.length)
          some ((if signed.1 then -q else q), rest3)
      else
        some ((if signed.1 then -intPart else intPart), c :: rest2)
    | [] => some ((if signed.1 then -intPart else intPart), [])

/-- Parse one JSON value (string or number). -/
def parseValue (cs : List Char) : Option (JLit × List Char) :=
  match cs with
  | [] => none
  | c :: rest =>
    if c = quoteChar then
      match parseStringBody rest with
      | none => none
      | some (s, r) => some (JLit.jstr s, r)
    else
      match parseNumber (c :: rest) with
      | none => none
      | some (q, r) => some (JLit.jnum q, r)

/-- Parse the members of a JSON object after the opening brace, through
the closing brace; `fuel` bounds the number of members. -/
def parseMembers : Nat → List Char → Option (List (String × JLit) × List Char)
  | 0, _ => none
  | fuel + 1, cs =>
    match cs with
    | [] => none
    | c :: rest =>
      if c = quoteChar then
        match parseStringBody rest with
        | none => none
        | some (key, r1) =>
          match r1 with
          | ':' :: r2 =>
            match parseValue r2 with
            | none => none
            | some (v, r3) =>
              match r3 with
              | [] => none
              | c2 :: r4 =>
                if c2 = ',' then
                  match parseMembers fuel r4 with
                  | none => none
                  | some (obj, r5) => some ((key, v) :: obj, r5)
                else if c2 = rbraceChar then
                  some ([(key, v)], r4)
                else
                  none
          | _ => none
      else
        none

/-- `JSON.parse` restricted to the flat, whitespace-free objects
`JSON.stringify` produces for the frames: succeeds only when the whole
input is one such object. -/
def parseJsonObject (cs : List Char) : Option (List (String × JLit)) :=
  match cs with
  | [] => none
  | c :: rest =>
    if c = lbraceChar then
      match rest with
      | [] => none
      | c2 :: r2 =>
        if c2 = rbraceChar then
          if r2 = [] then some [] else none
        else
          match parseMembers rest.length rest with
          | some (obj, []) => some obj
          | _ => none
    else none

/-- Property access on a parsed object; with duplicate keys `JSON.parse`
keeps the last occurrence. -/
def objLookup (k : String) (obj : List (String × JLit)) : Option JLit :=
  ((obj.reverse).find? (fun p => p.1 == k)).map (fun p => p.2)

/-- `data.message`-style access expecting a string. -/
def objStr (k : String) (obj : List (String × JLit)) : Option String :=
  match objLookup k obj with
  | some (JLit.jstr s) => some s
  | _ => none

/-- `data.progress`-style access expecting a number. -/
def objNum (k : String) (obj : List (String × JLit)) : Option ℚ :=
  match objLookup k obj with
  | some (JLit.jnum q) => some q
  | _ => none

/-- An event the consumer acts on: a status-bar progress update, the
completion toast, or the error toast (download-job.tsx lines 86-101). -/
inductive StreamEvent where
  | progress (message : Option String) (progressVal : Option ℚ)
  | complete
  | error (message : Option String)
deriving DecidableEq, Repr

/-- `line.startsWith('data: ')` followed by `line.slice(6)`. -/
def stripDataHeader : List Char → Option (List Char)
  | 'd' :: 'a' :: 't' :: 'a' :: ':' :: ' ' :: rest => some rest
  | _ => none

/-- What the consumer does with one line of a chunk (lines 82-106): lines
without the `data: ` header are skipped; the rest of a header line goes to
`JSON.parse`, whose errors are swallowed by the empty catch; a parsed
object produces an event only for the three recognized `type` values. -/
def eventOfLine (line : List Char) : Option StreamEvent :=
  match stripDataHeader line with
  | none => none
  | some body =>
    match parseJsonObject body with
    | none => none
    | some obj =>
      match objLookup "type" obj with
      | some (JLit.jstr t) =>
        if t = "progress" then
          some (StreamEvent.progress (objStr "message" obj) (objNum "progress" obj))
        else if t = "complete" then
          some StreamEvent.complete
        else if t = "error" then
          some (StreamEvent.error (objStr "message" obj))
        else
          none
      | _ => none

/-- The reader loop (lines 76-108): each decoded chunk is split on
newlines **independently** — there is no carry-over buffer between
chunks — and each resulting line is handled by `eventOfLine`. -/
def consumeChunks (chunks : List (List Char)) : List StreamEvent :=
  chunks.foldr (fun c acc => ((splitCharsOn '\n' c).filterMap eventOfLine) ++ acc) []

/-- One server frame as `route.ts` emits it (line 44 / 86):
`data: ` ++ `JSON.stringify(...)` ++ `\n\n`. -/
def frameOfJson (inner : List Char) : List Char :=
  "data: ".data ++ [lbraceChar] ++ inner ++ [rbraceChar] ++ '\n' :: '\n' :: []

/-- The terminal frame `data: {"type":"complete"}\n\n`. -/
def completeFrame : List Char :=
  frameOfJson ("\"type\":\"complete\"".data)

/-- The sizing-loop body as a binary fold step, the shape `List.foldl`
consumes in `buildAlbumUrls`. -/
def urlStep (st : Nat × Nat × List (Option Nat)) (p : Nat × BatchTrack) :
    Nat × Nat × List (Option Nat) :=
  albumUrlsStep p.1 p.2 st

/-- A disc block: `k` consecutive streamable tracks with media number `m`,
numbered `tn`, `tn + 1`, … (`tn = 1` at the start of a disc). -/
def discTracks (m : Nat) : Nat → Nat → List BatchTrack
  | 0, _ => []
  | k + 1, tn =>
    { streamable := true, media_number := m, track_number := tn } ::
      discTracks m k (tn + 1)

/-- An album batch given as disc blocks `(media_number, trackCount)`: the
discs in source order, each disc's tracks streamable and numbered from 1. -/
def mkBatch : List (Nat × Nat) → List BatchTrack
  | [] => []
  | (m, k) :: rest => discTracks m k 1 ++ mkBatch rest

/-- Total number of tracks of a disc-block list. -/
def totalCount : List (Nat × Nat) → Nat
  | [] => 0
  | p :: rest => p.2 + totalCount rest

/-! ## Concrete instances used by the theorems -/

/-- A single-disc batch of three tracks whose middle track is not
streamable. -/
def gapTracks : List BatchTrack :=
  [{ streamable := true, media_number := 1, track_number := 1 },
   { streamable := false, media_number := 1, track_number := 2 },
   { streamable := true, media_number := 1, track_number := 3 }]

/-- A settings object whose first validation group is thoroughly invalid
(wrong or missing quality, codec, bitrate, flags, art size/quality) while
the five fields of the second group are well-typed. -/
def invalidFirstGroupObj : JSSettingsObj :=
  { particles := none
    outputQuality := some (JSVal.s "nope")
    outputCodec := none
    bitrate := some (JSVal.n 9999)
    applyMetadata := none
    explicitContent := none
    fixMD5 := none
    albumArtSize := some (JSVal.b true)
    albumArtQuality := none
    zipName := some (JSVal.s "z")
    trackName := some (JSVal.s "t")
    serverSideDownloads := some (JSVal.b false)
    serverDownloadPath := some (JSVal.s "p")
    folderName := some (JSVal.s "f") }

/-- Hi-res FLAC output with metadata injection on: the default settings
shape, used to witness the cover-art fallback. -/
def flacMetaSettings : TranscodeSettings :=
  { outputQuality := Quality.q27
    outputCodec := Codec.FLAC
    bitrate := none
    applyMetadata := true }

/-- The settings of the C2 failing input: quality '27' (FLAC-native
source), requested codec MP3 at bitrate 320, metadata injection off. -/
def q27Mp3Settings : TranscodeSettings :=
  { outputQuality := Quality.q27
    outputCodec := Codec.MP3
    bitrate := some 320
    applyMetadata := false }

/-- An album carrying an explicitly empty `artists` array. -/
def emptyArtistsAlbum : QAlbumMeta := { artists := some [] }

/-- A track whose performer is named Bob. -/
def bobTrack : QTrackMeta := { performer := some { name := some "Bob" } }

/-! ## Helper lemmas -/

/-- Every entry of the upload loop is attempted. -/
lemma uploadFilesLoop_attempted (files : List UploadResult) :
    (uploadFilesLoop files).2 = files.length := by
  induction files with
  | nil => rfl
  | cons r rest ih => simp [uploadFilesLoop, ih]

/-- The loop's counter counts exactly the successful uploads. -/
lemma uploadFilesLoop_saved (files : List UploadResult) :
    (uploadFilesLoop files).1 =
      (files.filter (fun r => r == UploadResult.ok)).length := by
  induction files with
  | nil => rfl
  | cons r rest ih =>
    cases r <;> simp +decide [uploadFilesLoop, List.filter_cons, ih]
    omega

/-- Assigning one past the end of a JS array appends. -/
lemma jsArraySet_append (l : List (Option Nat)) (v : Nat) :
    jsArraySet l (l.length : Int) v = l ++ [some v] := by
  unfold jsArraySet
  rw [if_neg (by omega : ¬ ((l.length : Int) < 0))]
  simp [Int.toNat_natCast]

/-- A disc block has as many tracks as its count. -/
lemma discTracks_length (m : Nat) : ∀ (k tn : Nat), (discTracks m k tn).length = k
  | 0, _ => rfl
  | k + 1, tn => by simp [discTracks, discTracks_length m k (tn + 1)]

/-- A batch has `totalCount` tracks. -/
lemma mkBatch_length : ∀ (discs : List (Nat × Nat)), (mkBatch discs).length = totalCount discs
  | [] => rfl
  | (m, k) :: rest => by
    simp [mkBatch, totalCount, discTracks_length, mkBatch_length rest]

/-- Running the sizing loop over the tail of a disc block (current disc
already equals `m`): with the invariant `off + tn = t + 1` — the assigned
index `tn + off - 1` is exactly the next free position — each track
appends its own source index, keeping the array gap-free. -/
lemma albumUrls_tail_run (m : Nat) :
    ∀ (k tn t off : Nat), off + tn = t + 1 →
      List.foldl urlStep (m, off, (List.range t).map some)
          (List.enumFrom t (discTracks m k tn)) =
        (m, off, (List.range (t + k)).map some) := by
  intro k
  induction k with
  | zero =>
    intro tn t off _
    simp [discTracks]
  | succ k ih =>
    intro tn t off h
    rw [discTracks, List.enumFrom_cons, List.foldl_cons]
    have hidx : ((tn : Int) + (off : Int) - 1) = (((List.range t).map some).length : Int) := by
      simp only [List.length_map, List.length_range]
      omega
    have hstep :
        urlStep (m, off, (List.range t).map some)
            (t, { streamable := true, media_number := m, track_number := tn }) =
          (m, off, (List.range (t + 1)).map some) := by
      unfold urlStep albumUrlsStep
      simp only [Bool.not_true, bne_self_eq_false, if_false, Bool.false_eq_true, if_neg]
      rw [hidx, jsArraySet_append]
      simp [List.range_succ]
    rw [hstep]
    have h2 := ih (tn + 1) (t + 1) off (by omega)
    rw [show t + (k + 1) = (t + 1) + k from by omega]
    exact h2

/-- Running the sizing loop over a whole disc block starting at source
position `t`: whatever the incoming disc and offset (provided the offset
is `t` when the disc number happens to already match), the block fills
positions `t .. t+k-1` and leaves `currentDisk = m`, `trackOffset = t`. -/
lemma albumUrls_block_run (d off t m k : Nat) (hk : 0 < k) (hfirst : d = m → off = t) :
    List.foldl urlStep (d, off, (List.range t).map some)
        (List.enumFrom t (discTracks m k 1)) =
      (m, t, (List.range (t + k)).map some) := by
  obtain ⟨k', rfl⟩ : ∃ k', k = k' + 1 := ⟨k - 1, by omega⟩
  rw [discTracks, List.enumFrom_cons, List.foldl_cons]
  have hstep :
      urlStep (d, off, (List.range t).map some)
          (t, { streamable := true, media_number := m, track_number := 1 }) =
        (m, t, (List.range (t + 1)).map some) := by
    by_cases hdm : d = m
    · subst hdm
      have hofft : off = t := hfirst rfl
      subst hofft
      have hidx : (((1 : Nat) : Int) + (off : Int) - 1) =
          (((List.range off).map some).length : Int) := by
        simp
      unfold urlStep albumUrlsStep
      simp only [Bool.not_true, bne_self_eq_false, if_false, Bool.false_eq_true, if_neg]
      rw [hidx, jsArraySet_append]
      simp [List.range_succ]
    · have hne : (d != m) = true := by simp [hdm]
      unfold urlStep albumUrlsStep
      simp [hne, List.range_succ]
  rw [hstep]
  have h2 := albumUrls_tail_run m k' 2 (t + 1) t (by omega)
  rw [show t + (k' + 1) = (t + 1) + k' from by omega]
  exact h2

/-- Running the sizing loop over a well-formed batch (positive disc
counts, adjacent discs with distinct media numbers) from source position
`t` yields the gap-free array of all source indices, regardless of the
incoming disc state. -/
lemma albumUrls_batch_run :
    ∀ (discs : List (Nat × Nat)) (d off t : Nat),
      (∀ p ∈ discs, 0 < p.2) →
      List.Chain' (fun a b : Nat × Nat => a.1 ≠ b.1) discs →
      (∀ p, discs.head? = some p → d = p.1 → off = t) →
      (List.foldl urlStep (d, off, (List.range t).map some)
          (List.enumFrom t (mkBatch discs))).2.2 =
        (List.range (t + totalCount discs)).map some := by
  intro discs
  induction discs with
  | nil =>
    intro d off t _ _ _
    simp [mkBatch, totalCount]
  | cons p rest ih =>
    intro d off t hpos hchain hfirst
    obtain ⟨m, k⟩ := p
    rw [mkBatch, List.enumFrom_append, List.foldl_append, discTracks_length]
    rw [albumUrls_block_run d off t m k (hpos (m, k) (List.mem_cons_self _ _))
      (hfirst (m, k) rfl)]
    obtain ⟨hhead, hrest⟩ := List.chain'_cons'.mp hchain
    have h2 := ih m t (t + k) (fun q hq => hpos q (List.mem_cons_of_mem _ hq)) hrest
      (fun q hq hmq => absurd hmq (hhead q (Option.mem_iff.mpr hq)))
    rw [show t + totalCount ((m, k) :: rest) = (t + k) + totalCount rest from by
      simp [totalCount]; omega]
    exact h2

/-- The sizing loop of `buildAlbumUrls` on a well-formed batch produces
one url per track, in source order, with no holes. -/
lemma buildAlbumUrls_mkBatch (discs : List (Nat × Nat))
    (hpos : ∀ p ∈ discs, 0 < p.2)
    (hadj : List.Chain' (fun a b : Nat × Nat => a.1 ≠ b.1) discs) :
    buildAlbumUrls (mkBatch discs) = (List.range (totalCount discs)).map some := by
  have h := albumUrls_batch_run discs 1 0 0 hpos hadj (fun p _ _ => rfl)
  simpa [buildAlbumUrls, urlStep, List.enum] using h

/-- Enumerating a hole-free url array and naming each present entry gives
one file per position, named by that position. -/
lemma zipNames_of_all_some (trackCount : Nat) (render : Nat → String) (ext : String) :
    ∀ (u : List Nat) (j : Nat),
      (List.enumFrom j (u.map some)).filterMap
          (fun p => match p.2 with
            | none => none
            | some _ => some (albumFileName trackCount p.1 render ext)) =
        (List.range u.length).map (fun i => albumFileName trackCount (j + i) render ext)
  | [], j => by simp
  | x :: u, j => by
    simp only [List.map_cons, List.enumFrom_cons, List.filterMap_cons]
    rw [zipNames_of_all_some trackCount render ext u (j + 1)]
    rw [List.length_cons, List.range_succ_eq_map, List.map_cons, List.map_map]
    refine congrArg₂ _ (by simp) ?_
    apply List.map_congr_left
    intro i _
    have h3 : j + 1 + i = j + (i + 1) := by omega
    simp [Function.comp, h3, Nat.succ_eq_add_one]

/-! ## Claim theorems -/

/-- C1: the execution strategy resolver returns `ClientArchive` whenever
the global server-downloads flag is false, for every combination of the
two user preferences; `ServerNative` when all three flags are true;
`ClientServerUpload` when the global flag and the user server preference
hold but the processing preference does not; and `ClientArchive` when the
global flag holds but the user server preference does not. -/
theorem C1_executionMode_resolver :
    (∀ us up : Bool, executionMode false us up = ExecutionMode.ClientArchive) ∧
    executionMode true true true = ExecutionMode.ServerNative ∧
    executionMode true true false = ExecutionMode.ClientServerUpload ∧
    (∀ up : Bool, executionMode true false up = ExecutionMode.ClientArchive) := by
  refine ⟨?_, by decide, by decide, ?_⟩ <;> decide

/-- C2 (code bug): at settings quality '27', codec MP3, bitrate 320,
metadata off, the requested codec does not match the FLAC-native source
container (`skipRencode` is false, and `applyFFmpeg` itself would run a
re-encode pass), yet the gate in `processTrack` reports "No processing
needed" and the transcode stage performs no encoder pass at all, leaving
the fetched FLAC bytes untouched — the claim requires a re-encode here. -/
theorem C2_transcode_gate_evaluation :
    processTrackTranscode q27Mp3Settings true = ([], AudioContent.raw) ∧
    skipRencode q27Mp3Settings = false ∧
    (applyFFmpeg q27Mp3Settings true).1 = [FfmpegPass.reencode] := by
  decide

/-- C3 counterexample: triggering the cancellation handle while the
pipeline is in the metadata/transcode stage (after the audio download has
completed) does not resolve the job as Cancelled — the job runs on,
resolves as Completed, and the artifact is saved. -/
theorem C3_counterexample :
    ¬ (runClientTrackJob (some 3) true true).outcome = JobOutcome.Cancelled ∧
    (runClientTrackJob (some 3) true true).outcome = JobOutcome.Completed ∧
    (runClientTrackJob (some 3) true true).delivered = true := by
  decide

/-- C3 (amended): cancellation triggered while one of the three
signal-observing network stages (URL resolution, size probe, audio
download) is in flight resolves the job silently as Cancelled — never as
Failed, never as Completed, with no artifact delivered; cancellation
triggered at any later stage is not observed, and the job proceeds exactly
as an uncancelled run. -/
theorem C3_cancellation_amended (t : Nat) (durationOk acceptAnyway : Bool) :
    (t ≤ 2 →
      runClientTrackJob (some t) durationOk acceptAnyway =
        { outcome := JobOutcome.Cancelled, delivered := false }) ∧
    (2 < t →
      runClientTrackJob (some t) durationOk acceptAnyway =
        runClientTrackJob none durationOk acceptAnyway) := by
  constructor
  · intro h
    simp [runClientTrackJob, h]
  · intro h
    simp [runClientTrackJob, Nat.not_le.mpr h]

/-- Witness for C3_cancellation_amended at stage 1. -/
theorem C3_cancellation_amended_witness :
    runClientTrackJob (some 1) true true =
      { outcome := JobOutcome.Cancelled, delivered := false } :=
  (C3_cancellation_amended 1 true true).1 (by decide)

/-- C4: after processing, the output duration is compared against the
catalog-declared duration; when it is at least the declared duration the
file is saved automatically with no warning; when it is shorter the job
does not fail, a warning with a "Download anyway" action is surfaced, and
the file is saved exactly when the caller accepts. -/
theorem C4_duration_validation (audioDuration declared : ℚ) (accept : Bool) :
    (validateDuration audioDuration declared accept).failed = false ∧
    (declared ≤ audioDuration →
      validateDuration audioDuration declared accept =
        { delivered := true, warned := false, failed := false }) ∧
    (audioDuration < declared →
      (validateDuration audioDuration declared accept).warned = true ∧
      (validateDuration audioDuration declared accept).delivered = accept) := by
  refine ⟨?_, ?_, ?_⟩
  · by_cases h : declared ≤ audioDuration <;> simp [validateDuration, h]
  · intro h
    simp [validateDuration, h]
  · intro h
    simp [validateDuration, not_le.mpr h]

/-- Witness for C4_duration_validation: a short output warns without
failing and is saved only on acceptance; a long-enough output is saved
automatically. -/
theorem C4_duration_validation_witness :
    (validateDuration 100 200 false).warned = true ∧
    (validateDuration 100 200 false).delivered = false ∧
    (validateDuration 100 200 false).failed = false ∧
    validateDuration 250 200 true =
      { delivered := true, warned := false, failed := false } := by
  have h1 := C4_duration_validation 100 200 false
  have h2 := C4_duration_validation 250 200 true
  exact ⟨(h1.2.2 (by norm_num)).1, (h1.2.2 (by norm_num)).2, h1.1,
    h2.2.1 (by norm_num)⟩

/-- C5 counterexample: a packaged batch whose middle track is not
streamable yields the file indices 01 and 03 — 02 is absent — so the
indices of a packaged album batch do not, in general, form a single
continuous sequence. -/
theorem C5_counterexample :
    albumZipNames gapTracks (fun i => "T" ++ toString (i + 1)) "flac" =
      ["01 T1.flac", "03 T3.flac"] ∧
    "02 T2.flac" ∉ albumZipNames gapTracks (fun i => "T" ++ toString (i + 1)) "flac" := by
  decide

/-- C5 (amended): for every album batch made of disc blocks in source
order — positive track counts, adjacent discs with distinct media
numbers, each disc numbered from 1, every track streamable — the packaged
file names are exactly one per track, in disc-major source order, each a
1-based index zero-padded to width `max (len (toString (trackCount - 1)))
2` followed by the rendered track template: a single continuous sequence
with no restart at disc boundaries (so the 11-track two-disc batch yields
01 through 11). A non-streamable track instead leaves a gap in the
sequence. -/
theorem C5_album_batch_indices_amended (discs : List (Nat × Nat))
    (render : Nat → String) (ext : String)
    (hpos : ∀ p ∈ discs, 0 < p.2)
    (hadj : List.Chain' (fun a b : Nat × Nat => a.1 ≠ b.1) discs) :
    albumZipNames (mkBatch discs) render ext =
      (List.range (totalCount discs)).map
        (fun i => albumFileName (totalCount discs) i render ext) := by
  unfold albumZipNames
  rw [buildAlbumUrls_mkBatch discs hpos hadj, mkBatch_length]
  have h := zipNames_of_all_some (totalCount discs) render ext
    (List.range (totalCount discs)) 0
  simpa [List.enum, List.length_range] using h

/-- Witness for C5_album_batch_indices_amended: the 11-track two-disc
batch (disc 1 numbered 1-6, disc 2 restarting at 1) packages exactly the
continuous indices 01 through 11 with padding width 2. -/
theorem C5_album_batch_indices_amended_witness :
    albumZipNames (mkBatch [(1, 6), (2, 5)]) (fun i => "T" ++ toString (i + 1)) "flac" =
      ["01 T1.flac", "02 T2.flac", "03 T3.flac", "04 T4.flac", "05 T5.flac",
       "06 T6.flac", "07 T7.flac", "08 T8.flac", "09 T9.flac", "10 T10.flac",
       "11 T11.flac"] := by
  have h := C5_album_batch_indices_amended [(1, 6), (2, 5)]
    (fun i => "T" ++ toString (i + 1)) "flac" (by decide)
    (List.chain'_pair.mpr (by decide))
  exact h.trans (by decide)

/-- C6: when metadata is muxed into an art-capable codec and the cover
fetch fails, no art pass runs, the output written is exactly the
prior-stage (metadata-only) content — the content a successful run would
have wrapped with art — and the stage completes instead of failing (the
model function is total on this branch: the catch block copies the file). -/
theorem C6_art_fetch_fallback (s : TranscodeSettings)
    (hmeta : s.applyMetadata = true)
    (hart : codecSupportsArt s.outputCodec = true) :
    (applyFFmpeg s true).1 = (applyFFmpeg s false).1 ++ [FfmpegPass.muxArt] ∧
    (applyFFmpeg s true).2 = AudioContent.arted (applyFFmpeg s false).2 ∧
    FfmpegPass.muxArt ∉ (applyFFmpeg s false).1 := by
  cases hs : skipRencode s <;>
    simp [applyFFmpeg, hmeta, hart, hs]

/-- Witness for C6_art_fetch_fallback at quality 27 / FLAC / metadata on. -/
theorem C6_art_fetch_fallback_witness :
    (applyFFmpeg flacMetaSettings true).1 =
      (applyFFmpeg flacMetaSettings false).1 ++ [FfmpegPass.muxArt] ∧
    (applyFFmpeg flacMetaSettings true).2 =
      AudioContent.arted (applyFFmpeg flacMetaSettings false).2 ∧
    FfmpegPass.muxArt ∉ (applyFFmpeg flacMetaSettings false).1 :=
  C6_art_fetch_fallback flacMetaSettings rfl rfl

/-- C7: the per-file upload packager attempts every file of the batch,
counts successes per file, resolves the batch as Completed (never Failed)
whatever the individual results, and reports a succeeded/total count. -/
theorem C7_per_file_upload (files : List UploadResult) :
    (albumServerSave files).outcome = JobOutcome.Completed ∧
    (albumServerSave files).outcome ≠ JobOutcome.Failed ∧
    (uploadFilesLoop files).2 = files.length ∧
    (albumServerSave files).saved =
      (files.filter (fun r => r == UploadResult.ok)).length ∧
    (albumServerSave files).message =
      toString ((files.filter (fun r => r == UploadResult.ok)).length) ++ "/" ++
        toString files.length ++ " files" := by
  refine ⟨rfl, by simp [albumServerSave], uploadFilesLoop_attempted files, ?_, ?_⟩
  · simpa [albumServerSave] using uploadFilesLoop_saved files
  · simp [albumServerSave, uploadFilesLoop_saved files]

/-- C8 (code bug): the consumer parses each chunk's lines independently
with no carry-over buffer, so a `data: ` frame split across two chunks is
dropped. Delivered as one aligned chunk, the terminal frame yields the
`complete` event; split after its 12th character (the two pieces
concatenating back to the very same byte sequence), it yields no event at
all. -/
theorem C8_frame_split_loses_event :
    consumeChunks [completeFrame] = [StreamEvent.complete] ∧
    completeFrame.take 12 ++ completeFrame.drop 12 = completeFrame ∧
    consumeChunks [completeFrame.take 12, completeFrame.drop 12] = [] := by
  decide

/-- C9 counterexample: for an album whose artist list is explicitly empty
(no explicit artists) and a track performed by Bob, the block's `artist`
line is the literal fallback but the final `album_artist` assignment is
`Bob` — the unconditional extra `album_artist` line overrides the
fallback, so the two fields do not fall back together exactly when the
album lacks an artist list. -/
theorem C9_counterexample :
    ¬ ((artistFieldValue emptyArtistsAlbum bobTrack "Alice & Co" = "Various Artists" ∧
        lastAlbumArtistValue emptyArtistsAlbum bobTrack "Alice & Co" = "Various Artists") ↔
      (emptyArtistsAlbum.artists = none ∨ emptyArtistsAlbum.artists = some [])) := by
  decide

/-- C9 (amended): the artist line falls back to the literal
`Various Artists` exactly when the resolved artist array — `album.artists`
when defined, else the one-element array `[track.performer]` — is empty,
which happens exactly when `album.artists` is defined and empty (an album
with `artists` undefined never triggers the fallback: it is tagged from
`formatArtists(track)`); and the final `album_artist` assignment is always
`artists[0]?.name || track.performer?.name || 'Various Artists'`, falling
back to the literal only when both names are absent or empty. -/
theorem C9_artist_fallback_amended (album : QAlbumMeta) (track : QTrackMeta)
    (fmtArtists : String) :
    (resolvedArtists album track = [] ↔ album.artists = some []) ∧
    artistFieldValue album track fmtArtists =
      (if album.artists = some [] then "Various Artists" else fmtArtists) ∧
    lastAlbumArtistValue album track fmtArtists =
      jsStrOr (headArtistName (resolvedArtists album track))
        (jsStrOr (track.performer.bind (fun p => p.name)) "Various Artists") := by
  obtain ⟨oa⟩ := album
  obtain ⟨op⟩ := track
  cases oa with
  | none =>
    refine ⟨by simp [resolvedArtists], ?_, ?_⟩ <;>
      simp [resolvedArtists, artistFieldValue, lastAlbumArtistValue, artistTagLines]
  | some l =>
    cases l with
    | nil =>
      refine ⟨by simp [resolvedArtists], ?_, ?_⟩ <;>
        simp [resolvedArtists, artistFieldValue, lastAlbumArtistValue, artistTagLines]
    | cons a rest =>
      refine ⟨by simp [resolvedArtists], ?_, ?_⟩ <;>
        simp [resolvedArtists, artistFieldValue, lastAlbumArtistValue, artistTagLines]

/-- C10: `isValidSettings` returns the value of its second check group
alone — the comma operator discards the first group — so any object whose
zipName, trackName, serverDownloadPath and folderName are strings and
whose serverSideDownloads is a boolean validates, even one whose quality,
codec, bitrate, flags and art fields are all invalid or missing. -/
theorem C10_isValidSettings_comma :
    (∀ o : JSSettingsObj, isValidSettings o = secondGroupCheck o) ∧
    firstGroupCheck invalidFirstGroupObj = false ∧
    isValidSettings invalidFirstGroupObj = true := by
  refine ⟨fun o => rfl, by decide, by decide⟩

end QobuzDL
